import Mathlib

/-!
Verification of moler's Ls command parsing, RegexHelper and
ThreadPoolExecutorRunner.

Shallow embedding of:
* `moler/cmd/unix/ls.py` — the `Ls` command: regex-driven line parse chain,
  result accumulation, and the filtering accessors `get_dirs` / `get_links` /
  `get_files`;
* `moler/cmd/__init__.py` — `RegexHelper` with its instance-attribute `match`
  shadowing the method of the same name;
* `moler/runner.py` — `ThreadPoolExecutorRunner.wait_for`, its timeout path,
  its completion path (calling `shutdown`), and one iteration of `feed`.

Python regexes are embedded as deterministic matchers: every pattern used by
`Ls` is a concatenation of character-class repetitions whose neighbours use
disjoint classes, plus the greedy `\S.*\S` date group; for such patterns the
leftmost-greedy backtracking search has a unique deterministic outcome, which
the matchers below compute directly (documented at each definition).
Character classes are the ASCII versions of Python's `\s`, `\d`, `\w`
(all inputs in the repository's own examples are ASCII).
-/

/-- ASCII version of Python's regex class `\s` (space, tab, newline,
carriage return, vertical tab, form feed). -/
def isSpaceChar (c : Char) : Bool :=
  c = ' ' || c = '\t' || c = '\n' || c = '\r' || c = '\x0b' || c = '\x0c'

/-- Python's regex class `\d` restricted to ASCII. -/
def isDigitChar (c : Char) : Bool := c.isDigit

/-- Python's regex class `[\w-]` restricted to ASCII: letters, digits,
underscore, and the hyphen. -/
def isPermChar (c : Char) : Bool := c.isAlphanum || c = '_' || c = '-'

/-- Negation of `isSpaceChar`, Python's regex class `\S`. -/
def isNonspaceChar (c : Char) : Bool := !isSpaceChar c

/-- Maximal run of characters satisfying `p` from the front:
returns (run, rest).  This is the deterministic semantics of a greedy
`class+` / `class*` whose successor atom uses a disjoint class. -/
def takeRun (p : Char → Bool) : List Char → List Char × List Char
  | [] => ([], [])
  | c :: cs =>
    if p c then
      let (r, rest) := takeRun p cs
      (c :: r, rest)
    else ([], c :: cs)

/-- Exactly `n` characters satisfying `p` (the regex `class{n}`):
returns (taken, rest) or `none` if fewer than `n` match. -/
def takeExact : Nat → (Char → Bool) → List Char → Option (List Char × List Char)
  | 0, _, cs => some ([], cs)
  | _ + 1, _, [] => none
  | n + 1, p, c :: cs =>
    if p c then
      match takeExact n p cs with
      | some (r, rest) => some (c :: r, rest)
      | none => none
    else none

/-- Match a literal character sequence at the front, returning the rest. -/
def dropLit : List Char → List Char → Option (List Char)
  | [], cs => some cs
  | _ :: _, [] => none
  | l :: ls, c :: cs => if l = c then dropLit ls cs else none

/-- `str.split()` of Python: split on whitespace runs, no empty pieces.
`acc` holds the current word reversed. -/
def splitWsAux : List Char → List Char → List (List Char)
  | [], acc => if acc = [] then [] else [acc.reverse]
  | c :: cs, acc =>
    if isSpaceChar c then
      if acc = [] then splitWsAux cs [] else acc.reverse :: splitWsAux cs []
    else splitWsAux cs (c :: acc)

/-- Python `line.split()`. -/
def splitWs (cs : List Char) : List (List Char) := splitWsAux cs []

/-- `re.search(r"\S\x7b2,\x7d", line)` succeeds iff the line has two adjacent
non-whitespace characters (success is all `_parse_files_list` uses). -/
def hasTwoNonspace : List Char → Bool
  | c1 :: c2 :: rest =>
    (isNonspaceChar c1 && isNonspaceChar c2) || hasTwoNonspace (c2 :: rest)
  | _ => false

/-- Decimal digit run to a natural number (Python `int` on a digit string). -/
def digitsToNat (ds : List Char) : Nat :=
  ds.foldl (fun n c => 10 * n + (c.toNat - 48)) 0

/-- Leftmost search: try the matcher at every start position, left to right,
first success wins — the semantics of Python's `re.search`. -/
def searchWith {α : Type} (f : List Char → Option α) (cs : List Char) : Option α :=
  cs.tails.findSome? f

/-- Attempt of `total\s+(\d+\S*)` at one position.  Since `\s`, `\d` and the
following `\S*` leave no backtracking choice (neighbouring classes are
disjoint), the greedy match is: literal `total`, maximal whitespace run
(nonempty), maximal digit run (nonempty), maximal non-space run; group 1 is
the digit run plus the non-space tail. -/
def totalAt (cs : List Char) : Option (List Char) :=
  match dropLit ("total".data) cs with
  | none => none
  | some cs1 =>
    match takeRun isSpaceChar cs1 with
    | (ws, cs2) =>
      if ws = [] then none
      else
        match takeRun isDigitChar cs2 with
        | (ds, cs3) =>
          if ds = [] then none
          else some (ds ++ (takeRun isNonspaceChar cs3).fst)

/-- `Ls._re_total` searched over the line: group 1 of
`re.search(r"total\s+(\d+\S*)", line)`. -/
def searchTotal (cs : List Char) : Option (List Char) := searchWith totalAt cs

/-- One `(\S+)` field followed by mandatory whitespace `\s+`: maximal
non-empty run of `p`, then maximal non-empty whitespace run. -/
def fieldThenWs (p : Char → Bool) (cs : List Char) : Option (List Char × List Char) :=
  match takeRun p cs with
  | (f, cs1) =>
    if f = [] then none
    else
      match takeRun isSpaceChar cs1 with
      | (ws, cs2) => if ws = [] then none else some (f, cs2)

/-- The shared head `([\w-]{10})\s+(\d+)\s+(\S+)\s+(\S+)\s+(\S+)\s+` of
`Ls._re_long` and `Ls._re_long_links`: groups 1-5 and the rest of the line. -/
def longHeadAt (cs : List Char) :
    Option (List Char × List Char × List Char × List Char × List Char × List Char) :=
  match takeExact 10 isPermChar cs with
  | none => none
  | some (g1, cs1) =>
    match takeRun isSpaceChar cs1 with
    | (ws, cs2) =>
      if ws = [] then none
      else
        match fieldThenWs isDigitChar cs2 with
        | none => none
        | some (g2, cs3) =>
          match fieldThenWs isNonspaceChar cs3 with
          | none => none
          | some (g3, cs4) =>
            match fieldThenWs isNonspaceChar cs4 with
            | none => none
            | some (g4, cs5) =>
              match fieldThenWs isNonspaceChar cs5 with
              | none => none
              | some (g5, rest) => some (g1, g2, g3, g4, g5, rest)

/-- Checks that a candidate date group satisfies `\S.*\S` (length at least 2,
non-space at both ends, `.` never matches a newline). -/
def validDateGroup (g6 : List Char) : Bool :=
  2 ≤ g6.length &&
  (match g6.head? with | some c => isNonspaceChar c | none => false) &&
  (match g6.getLast? with | some c => isNonspaceChar c | none => false) &&
  g6.all (fun c => c ≠ '\n')

/-- Greedy `(\S.*\S)\s+(\S+)\s*$`.  The `.*` is maximised first, so group 7
is forced to be exactly the last whitespace-delimited token of the line and
group 6 everything before the whitespace gap preceding it; decompose from the
right.  Returns (group6, group7). -/
def dateTail (cs : List Char) : Option (List Char × List Char) :=
  match takeRun isSpaceChar cs.reverse with
  | (_, r1) =>
    match takeRun isNonspaceChar r1 with
    | (g7r, r2) =>
      if g7r = [] then none
      else
        match takeRun isSpaceChar r2 with
        | (wsr, r3) =>
          if wsr = [] then none
          else
            let g6 := r3.reverse
            if validDateGroup g6 then some (g6, g7r.reverse) else none

/-- Greedy `(\S.*\S)\s+(\S+)\s+->\s+(\S+)\s*$` of `Ls._re_long_links`.
Maximising `.*` forces the last three tokens of the line to be
(group 7, the literal `->` as its own token, group 8); decompose from the
right.  Returns (group6, group7, group8). -/
def linksTail (cs : List Char) : Option (List Char × List Char × List Char) :=
  match takeRun isSpaceChar cs.reverse with
  | (_, r1) =>
    match takeRun isNonspaceChar r1 with
    | (g8r, r2) =>
      if g8r = [] then none
      else
        match takeRun isSpaceChar r2 with
        | (ws2r, r3) =>
          if ws2r = [] then none
          else
            match takeRun isNonspaceChar r3 with
            | (arrowR, r4) =>
              if arrowR ≠ ['>', '-'] then none
              else
                match takeRun isSpaceChar r4 with
                | (ws1r, r5) =>
                  if ws1r = [] then none
                  else
                    match takeRun isNonspaceChar r5 with
                    | (g7r, r6) =>
                      if g7r = [] then none
                      else
                        match takeRun isSpaceChar r6 with
                        | (ws0r, r7) =>
                          if ws0r = [] then none
                          else
                            let g6 := r7.reverse
                            if validDateGroup g6 then
                              some (g6, g7r.reverse, g8r.reverse)
                            else none

/-- The eight capture groups of `Ls._re_long` / `Ls._re_long_links`
(permissions, hard-link count, owner, group, size, date, name, link target).
For `Ls._re_long` (no symlink arrow) `g8` is `[]` and never read. -/
structure LongG where
  g1 : List Char
  g2 : List Char
  g3 : List Char
  g4 : List Char
  g5 : List Char
  g6 : List Char
  g7 : List Char
  g8 : List Char
deriving DecidableEq, Repr

/-- Attempt of `Ls._re_long` at one position. -/
def longAt (cs : List Char) : Option LongG :=
  match longHeadAt cs with
  | none => none
  | some (g1, g2, g3, g4, g5, rest) =>
    match dateTail rest with
    | none => none
    | some (g6, g7) => some ⟨g1, g2, g3, g4, g5, g6, g7, []⟩

/-- Attempt of `Ls._re_long_links` at one position. -/
def linksAt (cs : List Char) : Option LongG :=
  match longHeadAt cs with
  | none => none
  | some (g1, g2, g3, g4, g5, rest) =>
    match linksTail rest with
    | none => none
    | some (g6, g7, g8) => some ⟨g1, g2, g3, g4, g5, g6, g7, g8⟩

/-- `re.search` with `Ls._re_long`. -/
def searchLong (cs : List Char) : Option LongG := searchWith longAt cs

/-- `re.search` with `Ls._re_long_links`. -/
def searchLinks (cs : List Char) : Option LongG := searchWith linksAt cs

/-- Multiplier of a size-unit suffix: 1024 to the unit's index (K=1, M=2,
G=3, T=4). -/
def unit_multiplier : Char → Option Nat
  | 'K' => some 1024
  | 'M' => some (1024 * 1024)
  | 'G' => some (1024 * 1024 * 1024)
  | 'T' => some (1024 * 1024 * 1024 * 1024)
  | _ => none

/-- Modelled from the spec: `ConverterHelper.to_bytes`
(`moler/util/converterhelper.py` is not under src/).  Spec: a size token
`<number><unit?>` with unit in none, K, M, G, T maps to
`number × 1024 ^ unit_index` (index 0 for no unit), exactly, also for
fractional numbers such as `4.5M`.  The number is integer digits, an
optional dot, and fraction digits; the result is the exact product when it
is integral (all of the repository's examples are). -/
def to_bytes (token : String) : Option Nat :=
  match takeRun isDigitChar token.data with
  | (ip, r1) =>
    if ip = [] then none
    else
      let (fp, rest) :=
        match r1 with
        | '.' :: r2 => takeRun isDigitChar r2
        | _ => ([], r1)
      let num := digitsToNat (ip ++ fp)
      let den := 10 ^ fp.length
      match rest with
      | [] => some (num / den)
      | [u] =>
        match unit_multiplier u with
        | some m => some (num * m / den)
        | none => none
      | _ => none

/-! ## The `Ls` command's result model (`self.current_ret`) -/

/-- One file-entry dictionary inside `current_ret["files"]`.  Each Python
dict key is an `Option` field; `none` means the key is absent (as in entries
produced by `_parse_files_list`, which records only the name). -/
structure FileEntry where
  name : Option String
  permissions : Option String
  hard_links_count : Option Nat
  owner : Option String
  group : Option String
  size_raw : Option String
  size_bytes : Option Nat
  date : Option String
  link : Option String
deriving DecidableEq, Repr

/-- `current_ret["total"]`: the raw token and its byte conversion
(`none` bytes would mean `to_bytes` failed). -/
structure TotalEntry where
  raw : String
  bytes : Option Nat
deriving DecidableEq, Repr

/-- `current_ret`: the `files` dict in insertion order plus the optional
`total` dict. -/
structure LsResult where
  files : List (String × FileEntry)
  total : Option TotalEntry
deriving DecidableEq, Repr

/-- The observable `Ls` command state: the accumulating result plus whether
the observer reached a terminal state (`done()`). -/
structure LsState where
  current_ret : LsResult
  is_done : Bool
deriving DecidableEq, Repr

/-- Python dict assignment `files[k] = v`: overwrite in place if the key
exists (keeping its position, as Python dicts do), else append. -/
def setFile : List (String × FileEntry) → String → FileEntry → List (String × FileEntry)
  | [], n, fe => [(n, fe)]
  | (k, v) :: rest, n, fe =>
    if k = n then (n, fe) :: rest else (k, v) :: setFile rest n fe

/-- Entry written by `_parse_files_list`: a fresh dict holding only `name`. -/
def nameOnlyEntry (n : String) : FileEntry :=
  ⟨some n, none, none, none, none, none, none, none, none⟩

/-- `Ls._add_new_file_long`: a fresh dict from the regex groups; `link`
(group 8) only when `islink`. -/
def _add_new_file_long (islink : Bool) (g : LongG) (r : LsResult) : LsResult :=
  ⟨setFile r.files (String.mk g.g7)
    ⟨some (String.mk g.g7), some (String.mk g.g1), some (digitsToNat g.g2),
     some (String.mk g.g3), some (String.mk g.g4), some (String.mk g.g5),
     to_bytes (String.mk g.g5), some (String.mk g.g6),
     if islink then some (String.mk g.g8) else none⟩,
   r.total⟩

/-- Effect of `Ls._parse_total` when its regex matched with group 1 `g1`. -/
def totalResult (g1 : List Char) (r : LsResult) : LsResult :=
  ⟨r.files, some ⟨String.mk g1, to_bytes (String.mk g1)⟩⟩

/-- Effect of `Ls._parse_files_list` when its regex matched: every
whitespace-delimited token becomes a fresh name-only entry. -/
def filesListResult (line : List Char) (r : LsResult) : LsResult :=
  ⟨(splitWs line).foldl
      (fun fs w => setFile fs (String.mk w) (nameOnlyEntry (String.mk w))) r.files,
   r.total⟩

/-! ## The parse chain of `Ls.on_new_line` -/

/-- Outcome of one `_parse_*` statement or of the statement sequence in the
`try` block: `ok` means the statement fell through, `parsingDone` means the
`ParsingDone` exception is in flight (carrying the already-mutated result,
since the Python methods mutate `self.current_ret` before raising). -/
inductive ParseOut where
  | ok (r : LsResult)
  | parsingDone (r : LsResult)
deriving DecidableEq, Repr

/-- Sequencing of Python statements under exception propagation: a raised
`ParsingDone` skips the remaining statements. -/
def pbind (x : ParseOut) (f : LsResult → ParseOut) : ParseOut :=
  match x with
  | .ok r => f r
  | .parsingDone r => .parsingDone r

/-- `Ls._parse_total`. -/
def _parse_total (line : List Char) (r : LsResult) : ParseOut :=
  match searchTotal line with
  | some g1 => .parsingDone (totalResult g1 r)
  | none => .ok r

/-- `Ls._parse_long_links`. -/
def _parse_long_links (line : List Char) (r : LsResult) : ParseOut :=
  match searchLinks line with
  | some g => .parsingDone (_add_new_file_long true g r)
  | none => .ok r

/-- `Ls._parse_long_file`. -/
def _parse_long_file (line : List Char) (r : LsResult) : ParseOut :=
  match searchLong line with
  | some g => .parsingDone (_add_new_file_long false g r)
  | none => .ok r

/-- `Ls._parse_files_list`. -/
def _parse_files_list (line : List Char) (r : LsResult) : ParseOut :=
  if hasTwoNonspace line then .parsingDone (filesListResult line r)
  else .ok r

/-- The `try` block of `Ls.on_new_line`: the four parse statements in their
call order (total, long-links, long-file, files-list), with `ParsingDone`
propagation between them. -/
def parse_chain (line : List Char) (r : LsResult) : ParseOut :=
  pbind (pbind (pbind (_parse_total line r)
    (_parse_long_links line)) (_parse_long_file line)) (_parse_files_list line)

/-- `except ParsingDone: pass` wrapped around `parse_chain`: the in-flight
signal is always caught, yielding a plain result. -/
def chain_result (line : List Char) (r : LsResult) : LsResult :=
  match parse_chain line r with
  | .ok r2 => r2
  | .parsingDone r2 => r2

/-- Modelled from the spec: the base-class handler
`GenericUnixCommand.on_new_line` (the generic `Command` hierarchy is not
under src/).  Spec: unclaimed lines "fall through to a base handler that
checks for a trailing prompt to mark the command Done-Success"; modelled as
setting the terminal state when the caller-supplied prompt predicate holds
on the line. -/
def base_on_new_line (prompt : String → Bool) (line : String)
    (_is_full_line : Bool) (st : LsState) : LsState :=
  if prompt line then ⟨st.current_ret, true⟩ else st

/-- `Ls.on_new_line`: on a full line run the parse chain under
`try/except ParsingDone`, then — unconditionally — call the base-class
handler (`return super(Ls, self).on_new_line(line, is_full_line)`). -/
def on_new_line (prompt : String → Bool) (line : String) (is_full_line : Bool)
    (st : LsState) : LsState :=
  let st2 : LsState :=
    if is_full_line then ⟨chain_result line.data st.current_ret, st.is_done⟩
    else st
  base_on_new_line prompt line is_full_line st2

/-- First-match-wins dispatch over the four patterns in chain order: the
semantics the parse chain is claimed to have. -/
def firstMatchSemantics (line : List Char) (r : LsResult) : ParseOut :=
  match searchTotal line with
  | some g1 => .parsingDone (totalResult g1 r)
  | none =>
    match searchLinks line with
    | some g => .parsingDone (_add_new_file_long true g r)
    | none =>
      match searchLong line with
      | some g => .parsingDone (_add_new_file_long false g r)
      | none =>
        if hasTwoNonspace line then .parsingDone (filesListResult line r)
        else .ok r

/-! ## The filtering accessors of `Ls` -/

/-- The failures `Ls._get_types` can raise: `ResultNotAvailableYet` before a
terminal state (from `moler.exceptions`), a `KeyError` reading a missing
`permissions` key, an `IndexError` on `permissions[0]` of an empty string. -/
inductive LsErr where
  | resultNotAvailableYet
  | keyError (k : String)
  | indexError
deriving DecidableEq, Repr

/-- The loop body of `Ls._get_types`: walk `result["files"]` in order; for
each entry read `file_dict["permissions"]` (KeyError if absent), take
`permissions[0]` (IndexError if empty) and keep entries whose first
character equals the requested type. -/
def classifyFiles (t : Char) : List (String × FileEntry) → Except LsErr (List (String × FileEntry))
  | [] => .ok []
  | (n, fe) :: rest =>
    match fe.permissions with
    | none => .error (.keyError "permissions")
    | some p =>
      match p.data with
      | [] => .error .indexError
      | c :: _ =>
        match classifyFiles t rest with
        | .error e => .error e
        | .ok xs => .ok (if t = c then (n, fe) :: xs else xs)

/-- `Ls._get_types`: raise `ResultNotAvailableYet` unless `done()`, then
classify by the first character of each entry's `permissions`
(the requested type is lowercased first, as in the source). -/
def _get_types (t : Char) (st : LsState) : Except LsErr (List (String × FileEntry)) :=
  if st.is_done then classifyFiles t.toLower st.current_ret.files
  else .error .resultNotAvailableYet

/-- `Ls.get_dirs`. -/
def get_dirs (st : LsState) : Except LsErr (List (String × FileEntry)) := _get_types 'd' st

/-- `Ls.get_links`. -/
def get_links (st : LsState) : Except LsErr (List (String × FileEntry)) := _get_types 'l' st

/-- `Ls.get_files`. -/
def get_files (st : LsState) : Except LsErr (List (String × FileEntry)) := _get_types '-' st

/-- The pure filter `classifyFiles` computes when every entry is
well-formed: entries whose `permissions` value starts with `t`. -/
def permFilter (t : Char) (fs : List (String × FileEntry)) : List (String × FileEntry) :=
  fs.filter (fun e =>
    match e.2.permissions with
    | some p =>
      match p.data with
      | c :: _ => decide (t = c)
      | [] => false
    | none => false)

/-- Every entry has a non-empty `permissions` value. -/
def permsWellFormed (fs : List (String × FileEntry)) : Bool :=
  fs.all (fun e =>
    match e.2.permissions with
    | some p => !p.data.isEmpty
    | none => false)

/-- Some entry lacks the `permissions` key entirely. -/
def somePermMissing (fs : List (String × FileEntry)) : Bool :=
  fs.any (fun e => e.2.permissions.isNone)

/-- No entry has an *empty* `permissions` value (entries may still lack the
key). -/
def noEmptyPerm (fs : List (String × FileEntry)) : Bool :=
  fs.all (fun e =>
    match e.2.permissions with
    | some p => !p.data.isEmpty
    | none => true)

/-! ## Concrete scenario states -/

/-- The `Ls` state right after `__init__`: `current_ret["files"]` is an
empty dict, no terminal state yet. -/
def ls_init : LsState := ⟨⟨[], none⟩, false⟩

/-- Prompt predicate of the worked example: the remote prompt line. -/
def c1_prompt (l : String) : Bool := l = "host:~ #"

/-- The canonical long-format listing of the spec fed line by line: three
full lines, then the trailing prompt as a partial line (a prompt arrives
without a newline, so `is_full_line` is false for it). -/
def c1_state : LsState :=
  on_new_line c1_prompt "host:~ #" false
    (on_new_line c1_prompt "lrwxrwxrwx  1 root root    4 Mar 20 2015 bcn -> /bcn" true
      (on_new_line c1_prompt "drwxr-xr-x  2 root root 4096 Sep 25 2014 bin" true
        (on_new_line c1_prompt "total 8" true ls_init)))

/-- Expected entry for `bin` after the canonical listing. -/
def binEntry : FileEntry :=
  ⟨some "bin", some "drwxr-xr-x", some 2, some "root", some "root",
   some "4096", some 4096, some "Sep 25 2014", none⟩

/-- Expected entry for `bcn` after the canonical listing. -/
def bcnEntry : FileEntry :=
  ⟨some "bcn", some "lrwxrwxrwx", some 1, some "root", some "root",
   some "4", some 4, some "Mar 20 2015", some "/bcn"⟩

/-- A prompt predicate that happens to match the line `total 8` — prompts
are caller-supplied, so nothing rules this out. -/
def c5_prompt (l : String) : Bool := l = "total 8"

/-- A done `Ls` command whose only output line was a bare filename list, so
both recorded entries lack the `permissions` key. -/
def c10_state : LsState :=
  on_new_line c1_prompt "host:~ #" false
    (on_new_line c1_prompt ".ansible Downloads" true ls_init)

/-! ## `RegexHelper` (`moler/cmd/__init__.py`)

Python attribute semantics are embedded explicitly: an instance carries its
`__dict__`; looking up an attribute consults the instance dict first and
falls back to the class's methods.  `__init__` executes `self.match = None`,
so the key `match` is in the instance dict from birth and every
`search`/`search_compiled`/`match_compiled` call reassigns it. -/

/-- The engine's match result, abstracted: the list of captured groups. -/
structure MatchRes where
  groups : List String
deriving DecidableEq, Repr

/-- A Python value stored in the instance dict: `None` or a match object. -/
inductive PyVal where
  | pyNone
  | pyMatch (m : MatchRes)
deriving DecidableEq, Repr

/-- The instance `__dict__`, in insertion order. -/
structure RegexHelperObj where
  instance_dict : List (String × PyVal)
deriving DecidableEq, Repr

/-- Dict lookup. -/
def dictGet : List (String × PyVal) → String → Option PyVal
  | [], _ => none
  | (k, v) :: rest, n => if k = n then some v else dictGet rest n

/-- Dict assignment (overwrite in place or append). -/
def dictSet : List (String × PyVal) → String → PyVal → List (String × PyVal)
  | [], n, v => [(n, v)]
  | (k, w) :: rest, n, v =>
    if k = n then (n, v) :: rest else (k, w) :: dictSet rest n v

/-- The methods defined on the `RegexHelper` class body. -/
def regexHelperClassMethods : List String :=
  ["search", "search_compiled", "match", "match_compiled", "get_match", "group"]

/-- `RegexHelper.__init__`: `self.match = None`. -/
def RegexHelper_new : RegexHelperObj := ⟨[("match", .pyNone)]⟩

/-- The value cached by an assignment `self.match = <engine result>`. -/
def cacheVal : Option MatchRes → PyVal
  | some m => .pyMatch m
  | none => .pyNone

/-- `RegexHelper.search` / `RegexHelper.search_compiled` /
`RegexHelper.match_compiled` all have the same state effect: assign the
engine's result (abstracted as `res`) to `self.match` and return it. -/
def RegexHelperObj.cacheSearch (rh : RegexHelperObj) (res : Option MatchRes) :
    RegexHelperObj × Option MatchRes :=
  (⟨dictSet rh.instance_dict "match" (cacheVal res)⟩, res)

/-- `RegexHelper.get_match`: read `self.match`, no state change. -/
def RegexHelperObj.get_match (rh : RegexHelperObj) : Option PyVal :=
  dictGet rh.instance_dict "match"

/-- Result of Python attribute lookup on a `RegexHelper` instance. -/
inductive AttrLookup where
  | instanceVal (v : PyVal)
  | classMethod (n : String)
  | attrMissing
deriving DecidableEq, Repr

/-- `getattr(rh, name)`: the instance `__dict__` shadows class methods. -/
def RegexHelperObj.getattr (rh : RegexHelperObj) (n : String) : AttrLookup :=
  match dictGet rh.instance_dict n with
  | some v => .instanceVal v
  | none =>
    if n ∈ regexHelperClassMethods then .classMethod n else .attrMissing

/-- Result of `rh.<name>(...)`: a data attribute found in the instance dict
is not callable (`None` and match objects have no `__call__`), a class
function becomes a bound method, a missing attribute is an
`AttributeError`. -/
inductive CallRes where
  | typeErrorNotCallable (v : PyVal)
  | boundMethod (n : String)
  | attributeError
deriving DecidableEq, Repr

/-- Invoke the attribute `n` on the instance. -/
def RegexHelperObj.callAttr (rh : RegexHelperObj) (n : String) : CallRes :=
  match rh.getattr n with
  | .instanceVal v => .typeErrorNotCallable v
  | .classMethod m => .boundMethod m
  | .attrMissing => .attributeError

/-- The state-changing operations a client can perform on a helper. -/
inductive RHOp where
  | doSearch (res : Option MatchRes)
  | doSearchCompiled (res : Option MatchRes)
  | doMatchCompiled (res : Option MatchRes)
  | doGetMatch
deriving DecidableEq, Repr

/-- Apply one operation. -/
def applyOp (rh : RegexHelperObj) : RHOp → RegexHelperObj
  | .doSearch r => (rh.cacheSearch r).1
  | .doSearchCompiled r => (rh.cacheSearch r).1
  | .doMatchCompiled r => (rh.cacheSearch r).1
  | .doGetMatch => rh

/-- Apply a sequence of operations to a fresh helper. -/
def applyOps (rh : RegexHelperObj) (ops : List RHOp) : RegexHelperObj :=
  ops.foldl applyOp rh

/-! ## `ThreadPoolExecutorRunner` (`moler/runner.py`)

`wait_for` is embedded as a fuel-indexed loop over polling ticks.  Real time
is abstracted: each `wait([future], timeout=wait_tick)` call that does not
see the future complete consumes exactly `wait_tick` seconds, so the elapsed
time after `k` completed iterations is `k * wait_tick` (a rational).
`env.futureDone k` says whether the future completed during wait call `k`;
`env.obsT k` is the value of the (mutable) `connection_observer.timeout`
field as read at tick `k` (`obsT 0` is the read at entry,
`remain_time = connection_observer.timeout`). -/

/-- The environment a `wait_for` call runs against. -/
structure WaitEnv where
  futureDone : Nat → Bool
  obsT : Nat → Rat
  hasCommandString : Bool

/-- The externally visible actions `wait_for` performs, in order. -/
inductive RunnerAction where
  | unsubscribeAct
  | cancelObserverAct
  | cancelFutureAct
  | shutdownAct
  | onTimeoutAct
deriving DecidableEq, Repr

/-- The typed timeout failures of `moler.exceptions`, carrying the
`timeout` variable at raise time (`none` mirrors a Python `None`) and the
measured `passed_time`. -/
inductive TimeoutErr where
  | commandTimeout (tval : Option Rat) (passed : Rat)
  | connectionObserverTimeout (tval : Option Rat) (passed : Rat)
deriving DecidableEq, Repr

/-- Outcome of a `wait_for` call. -/
inductive WaitOutcome where
  | completed (trace : List RunnerAction)
  | timedOut (trace : List RunnerAction) (err : TimeoutErr)
  | outOfFuel
deriving DecidableEq, Repr

/-- The action sequence of the deadline-expiry path, in source order:
`moler_conn.unsubscribe(...)`, `connection_observer.cancel()`,
`connection_observer_future.cancel()`, `self.shutdown()`,
`connection_observer.on_timeout()`, then the raise. -/
def timeoutTrace : List RunnerAction :=
  [.unsubscribeAct, .cancelObserverAct, .cancelFutureAct, .shutdownAct, .onTimeoutAct]

/-- The raise at the end of `wait_for`:
`CommandTimeout` iff `hasattr(connection_observer, "command_string")`. -/
def mkTimeoutErr (hasCmd : Bool) (tval : Option Rat) (passed : Rat) : TimeoutErr :=
  if hasCmd then .commandTimeout tval passed else .connectionObserverTimeout tval passed

/-- The `while remain_time > 0.0` loop of `wait_for`.  At tick `k` the
elapsed time is `k * wt`; `tOpt` is the Python local `timeout` (possibly
`None`), re-assigned from the observer each iteration when
`check_timeout_from_observer`; when `check` is false `tOpt` is the explicit
value from entry, so `getD 0` never actually defaults. -/
def wait_for_loop (env : WaitEnv) (check : Bool) (wt : Rat) :
    Option Rat → Rat → Nat → Nat → WaitOutcome
  | _, _, _, 0 => .outOfFuel
  | tOpt, remain, k, fuel + 1 =>
    if remain > 0 then
      if env.futureDone k then .completed [.shutdownAct]
      else
        let tOpt2 := if check then some (env.obsT (k + 1)) else tOpt
        let remain2 := tOpt2.getD 0 - ((k + 1 : Nat) : Rat) * wt
        wait_for_loop env check wt tOpt2 remain2 (k + 1) fuel
    else
      .timedOut timeoutTrace (mkTimeoutErr env.hasCommandString tOpt ((k : Rat) * wt))

/-- `ThreadPoolExecutorRunner.wait_for`: Python's `if timeout:` is false for
both `None` and `0.0`, so only a nonzero explicit timeout fixes the
deadline (`check_timeout_from_observer = False`, `wait_tick = timeout`);
otherwise the observer's live timeout field governs with a 0.1 s tick. -/
def wait_for (env : WaitEnv) : Option Rat → Nat → WaitOutcome
  | some t, fuel =>
    if t = 0 then wait_for_loop env true (1 / 10) (some t) (env.obsT 0) 0 fuel
    else wait_for_loop env false t (some t) t 0 fuel
  | none, fuel => wait_for_loop env true (1 / 10) none (env.obsT 0) 0 fuel

/-- The wait tick `wait_for` ends up polling with, per entry arguments. -/
def wait_tick_of (timeout : Option Rat) : Rat :=
  match timeout with
  | some t => if t = 0 then 1 / 10 else t
  | none => 1 / 10

/-- Runner state touched by `shutdown()`: the `_in_shutdown` flag.
(`executor.shutdown()` on an owned backend is outside these claims.) -/
structure RunnerState where
  _in_shutdown : Bool
deriving DecidableEq, Repr

/-- Effect of one runner action on the runner's own state: only
`self.shutdown()` changes it, setting `_in_shutdown = True`. -/
def applyAction (rs : RunnerState) : RunnerAction → RunnerState
  | .shutdownAct => ⟨true⟩
  | _ => rs

/-- Effect of an action trace. -/
def applyActions (rs : RunnerState) (tr : List RunnerAction) : RunnerState :=
  tr.foldl applyAction rs

/-- Observer state as the `feed` loop sees it. -/
structure ObsState where
  obs_done : Bool
  cancelled : Bool
deriving DecidableEq, Repr

/-- Modelled from the spec: `ConnectionObserver.cancel` (the observer base
class is not under src/).  Spec: "transitions to Cancelled if still
Pending; idempotent"; terminal states are sticky. -/
def ObsState.cancel (o : ObsState) : ObsState :=
  if o.obs_done then o else ⟨true, true⟩

/-- Result of one iteration of the `while True` polling loop in `feed`. -/
inductive FeedIter where
  | exitedUnsub (o : ObsState)
  | continues (o : ObsState)
deriving DecidableEq, Repr

/-- One iteration of `ThreadPoolExecutorRunner.feed`'s loop: a done
observer is unsubscribed and the loop breaks; otherwise, if the runner is
in shutdown, the observer is cancelled and polling continues. -/
def feed_iter (rs : RunnerState) (o : ObsState) : FeedIter :=
  if o.obs_done then .exitedUnsub o
  else if rs._in_shutdown then .continues o.cancel
  else .continues o

/-! ## Concrete runner environments -/

/-- A future that never completes. -/
def noDoneF (_ : Nat) : Bool := false

/-- A command observer whose future never completes and whose timeout field
stays at 0.1 s. -/
def envTimeoutCmd : WaitEnv := ⟨noDoneF, fun _ => 1 / 10, true⟩

/-- Observer timeout field for the live-deadline scenario: 0.3 s until the
caller raises it to 0.4 s from tick 2 onwards (a mid-wait extension). -/
def liveObsT (k : Nat) : Rat := if k < 2 then 3 / 10 else 4 / 10

/-- Environment of the live-deadline scenario (a generic observer, no
`command_string`). -/
def envLive : WaitEnv := ⟨noDoneF, liveObsT, false⟩

/-- Observer timeout field constantly zero. -/
def envZ1 : WaitEnv := ⟨noDoneF, fun _ => 0, false⟩

/-- Observer timeout field constantly 0.2 s; same future and observer kind
as `envZ1`, differing only in the observer's timeout field. -/
def envZ2 : WaitEnv := ⟨noDoneF, fun _ => 1 / 5, false⟩

/-- A future that completes during the first wait call. -/
def envCompletes : WaitEnv := ⟨fun _ => true, fun _ => 1, true⟩

/-! ## Helper lemmas -/

deriving instance DecidableEq for Except

/-- `classifyFiles` on well-formed entries is the pure first-character
filter. -/
theorem classifyFiles_wellformed (t : Char) (fs : List (String × FileEntry))
    (h : permsWellFormed fs = true) : classifyFiles t fs = .ok (permFilter t fs) := by
  induction fs with
  | nil => rfl
  | cons e rest ih =>
    obtain ⟨n, fe⟩ := e
    rw [permsWellFormed, List.all_cons, Bool.and_eq_true] at h
    obtain ⟨h1, h2⟩ := h
    have ih2 := ih h2
    cases hp : fe.permissions with
    | none => simp [hp] at h1
    | some p =>
      rw [hp] at h1
      cases hd : p.data with
      | nil => simp [hd] at h1
      | cons c cs =>
        by_cases htc : t = c
        · subst htc
          simp [classifyFiles, hp, hd, ih2, permFilter, List.filter_cons]
        · simp [classifyFiles, hp, hd, ih2, permFilter, List.filter_cons, htc]

/-- `classifyFiles` hits the `KeyError` on `permissions` whenever some entry
lacks the key and no entry has an empty permissions string. -/
theorem classifyFiles_missing_key (t : Char) (fs : List (String × FileEntry))
    (hne : noEmptyPerm fs = true) (hsm : somePermMissing fs = true) :
    classifyFiles t fs = .error (.keyError "permissions") := by
  induction fs with
  | nil => simp [somePermMissing] at hsm
  | cons e rest ih =>
    obtain ⟨n, fe⟩ := e
    rw [noEmptyPerm, List.all_cons, Bool.and_eq_true] at hne
    obtain ⟨hne1, hne2⟩ := hne
    rw [somePermMissing, List.any_cons, Bool.or_eq_true] at hsm
    cases hp : fe.permissions with
    | none => simp [classifyFiles, hp]
    | some p =>
      have hsm2 : somePermMissing rest = true := by
        rcases hsm with hhd | htl
        · rw [hp] at hhd; simp [Option.isNone] at hhd
        · exact htl
      rw [hp] at hne1
      cases hd : p.data with
      | nil => simp [hd] at hne1
      | cons c cs => simp [classifyFiles, hp, hd, ih hne2 hsm2]

/-- `dictSet` establishes the key. -/
theorem dictGet_dictSet_self (d : List (String × PyVal)) (n : String) (v : PyVal) :
    dictGet (dictSet d n v) n = some v := by
  induction d with
  | nil => simp [dictSet, dictGet]
  | cons e rest ih =>
    obtain ⟨k, w⟩ := e
    by_cases hk : k = n
    · simp [dictSet, dictGet, hk]
    · simp [dictSet, dictGet, hk, ih]

/-- Once `match` is a key of the instance dict, every operation sequence
keeps it one. -/
theorem applyOps_key_present (ops : List RHOp) :
    ∀ (rh : RegexHelperObj) (v : PyVal),
      dictGet rh.instance_dict "match" = some v →
      ∃ w, dictGet (applyOps rh ops).instance_dict "match" = some w := by
  induction ops with
  | nil => exact fun rh v h => ⟨v, h⟩
  | cons op rest ih =>
    intro rh v h
    cases op with
    | doSearch r =>
      exact ih _ (cacheVal r) (dictGet_dictSet_self rh.instance_dict "match" (cacheVal r))
    | doSearchCompiled r =>
      exact ih _ (cacheVal r) (dictGet_dictSet_self rh.instance_dict "match" (cacheVal r))
    | doMatchCompiled r =>
      exact ih _ (cacheVal r) (dictGet_dictSet_self rh.instance_dict "match" (cacheVal r))
    | doGetMatch => exact ih rh v h

/-- In a `timedOut` outcome of the polling loop the trace is the expiry
trace and the error is the `hasattr` dispatch with elapsed time a number of
ticks times the tick length. -/
theorem wait_for_loop_timedOut_shape (fuel : Nat) :
    ∀ (env : WaitEnv) (check : Bool) (wt : Rat) (tOpt : Option Rat) (remain : Rat)
      (k : Nat) (tr : List RunnerAction) (err : TimeoutErr),
      wait_for_loop env check wt tOpt remain k fuel = .timedOut tr err →
      tr = timeoutTrace ∧
      ∃ (tv : Option Rat) (k2 : Nat),
        k ≤ k2 ∧ err = mkTimeoutErr env.hasCommandString tv ((k2 : Rat) * wt) := by
  induction fuel with
  | zero =>
    intro env check wt tOpt remain k tr err h
    simp [wait_for_loop] at h
  | succ n ih =>
    intro env check wt tOpt remain k tr err h
    simp only [wait_for_loop] at h
    by_cases hr : remain > 0
    · rw [if_pos hr] at h
      cases hd : env.futureDone k with
      | true => rw [hd] at h; simp at h
      | false =>
        rw [hd] at h
        simp only [Bool.false_eq_true, if_false] at h
        obtain ⟨h1, tv, k2, hk, h2⟩ := ih env check wt _ _ _ tr err h
        exact ⟨h1, tv, k2, Nat.le_of_succ_le hk, h2⟩
    · rw [if_neg hr] at h
      injection h with h1 h2
      exact ⟨h1.symm, tOpt, k, Nat.le_refl k, h2.symm⟩

/-- A `completed` outcome of the polling loop carries exactly the
`shutdown` action. -/
theorem wait_for_loop_completed_shape (fuel : Nat) :
    ∀ (env : WaitEnv) (check : Bool) (wt : Rat) (tOpt : Option Rat) (remain : Rat)
      (k : Nat) (tr : List RunnerAction),
      wait_for_loop env check wt tOpt remain k fuel = .completed tr →
      tr = [RunnerAction.shutdownAct] := by
  induction fuel with
  | zero =>
    intro env check wt tOpt remain k tr h
    simp [wait_for_loop] at h
  | succ n ih =>
    intro env check wt tOpt remain k tr h
    simp only [wait_for_loop] at h
    by_cases hr : remain > 0
    · rw [if_pos hr] at h
      cases hd : env.futureDone k with
      | true =>
        rw [hd] at h
        simp only [if_true] at h
        injection h with h1
        exact h1.symm
      | false =>
        rw [hd] at h
        simp only [Bool.false_eq_true, if_false] at h
        exact ih env check wt _ _ _ tr h
    · rw [if_neg hr] at h
      simp at h

/-- With `check_timeout_from_observer` false the loop never reads the
observer's timeout field: only the future and the `hasattr` flag matter. -/
theorem wait_for_loop_no_check (fuel : Nat) :
    ∀ (e1 e2 : WaitEnv) (wt : Rat) (tOpt : Option Rat) (remain : Rat) (k : Nat),
      e1.futureDone = e2.futureDone → e1.hasCommandString = e2.hasCommandString →
      wait_for_loop e1 false wt tOpt remain k fuel
        = wait_for_loop e2 false wt tOpt remain k fuel := by
  induction fuel with
  | zero => intros; rfl
  | succ n ih =>
    intro e1 e2 wt tOpt remain k hf hc
    simp only [wait_for_loop]
    rw [hf, hc]
    by_cases hr : remain > 0
    · rw [if_pos hr, if_pos hr]
      cases e2.futureDone k
      · simp only [Bool.false_eq_true, if_false]
        exact ih e1 e2 wt _ _ _ hf hc
      · rfl
    · rw [if_neg hr, if_neg hr]

/-- With `check_timeout_from_observer` true, while each tick's live
observer-timeout value exceeds the elapsed time the loop keeps polling, and
it exits on the first tick `K` where it no longer does, raising with the
last-read timeout value and elapsed time `K` ticks. -/
theorem wait_for_loop_live_deadline (d : Nat) :
    ∀ (env : WaitEnv) (K : Nat),
      (∀ j, env.futureDone j = false) →
      (∀ k, 1 ≤ k → k < K → (k : Rat) * (1 / 10) < env.obsT k) →
      env.obsT K ≤ (K : Rat) * (1 / 10) →
      ∀ (k fuel : Nat), k + d = K → 1 ≤ k → d < fuel →
        wait_for_loop env true (1 / 10) (some (env.obsT k))
            (env.obsT k - (k : Rat) * (1 / 10)) k fuel
          = .timedOut timeoutTrace
              (mkTimeoutErr env.hasCommandString (some (env.obsT K)) ((K : Rat) * (1 / 10))) := by
  induction d with
  | zero =>
    intro env K hnd hmid hK k fuel hkd hk1 hfuel
    obtain ⟨f, rfl⟩ : ∃ f, fuel = f + 1 := ⟨fuel - 1, by omega⟩
    have hkK : k = K := by omega
    subst hkK
    simp only [wait_for_loop]
    rw [if_neg (by linarith [hK])]
  | succ d ih =>
    intro env K hnd hmid hK k fuel hkd hk1 hfuel
    obtain ⟨f, rfl⟩ : ∃ f, fuel = f + 1 := ⟨fuel - 1, by omega⟩
    have hkK : k < K := by omega
    have hpos : env.obsT k - (k : Rat) * (1 / 10) > 0 := by
      have := hmid k hk1 hkK; linarith
    simp only [wait_for_loop]
    rw [if_pos hpos, hnd k]
    simp only [Bool.false_eq_true, if_false, if_true, Option.getD_some]
    have hcast : ((k + 1 : Nat) : Rat) = ((k : Rat) + 1) := by push_cast; ring
    have := ih env K hnd hmid hK (k + 1) f (by omega) (by omega) (by omega)
    rw [hcast] at this ⊢
    exact this

/-! ## Claim theorems -/

/-- Claim C1: fed the canonical long-format listing (a `total 8` line, a
`drwxr-xr-x ... bin` line, a `lrwxrwxrwx ... bcn -> /bcn` line, then the
prompt), the accumulated result maps `total.raw` to "8" and `total.bytes`
to 8, `files.bin` has permissions "drwxr-xr-x" and `size_bytes` 4096,
`files.bcn` has link "/bcn"; once done, `get_dirs()` returns exactly the
entries whose permissions start with `d` (only `bin`) and `get_links()`
exactly those starting with `l` (only `bcn`). -/
theorem ls_canonical_listing :
    c1_state.is_done = true
    ∧ c1_state.current_ret.total = some ⟨"8", some 8⟩
    ∧ c1_state.current_ret.files = [("bin", binEntry), ("bcn", bcnEntry)]
    ∧ binEntry.permissions = some "drwxr-xr-x"
    ∧ binEntry.size_bytes = some 4096
    ∧ bcnEntry.link = some "/bcn"
    ∧ get_dirs c1_state = .ok [("bin", binEntry)]
    ∧ get_links c1_state = .ok [("bcn", bcnEntry)] := by
  decide

/-- Claim C4: predicates run only on full lines (a partial line goes
straight to the base handler with the result untouched); on a full line the
chain realises first-match-wins dispatch in call order (total, long-links,
long-file, files-list), the first matching handler writing its effect and
skipping the rest; the `ParsingDone` signal is always caught inside
`on_new_line` (its result is an ordinary state, fed to the base handler),
and each line is processed independently of the signal raised for a
previous one. -/
theorem ls_parse_chain_dispatch (prompt : String → Bool) (line : String) (st : LsState) :
    (on_new_line prompt line false st = base_on_new_line prompt line false st)
    ∧ (∀ r, parse_chain line.data r = firstMatchSemantics line.data r)
    ∧ (on_new_line prompt line true st
        = base_on_new_line prompt line true ⟨chain_result line.data st.current_ret, st.is_done⟩) := by
  refine ⟨rfl, ?_, rfl⟩
  intro r
  unfold parse_chain firstMatchSemantics _parse_total _parse_long_links _parse_long_file
    _parse_files_list pbind
  cases searchTotal line.data <;>
    cases searchLinks line.data <;>
      cases searchLong line.data <;>
        cases hasTwoNonspace line.data <;> rfl

/-- Claim C5 counterexample: the line `total 8` is consumed by the first
parse handler (the chain raises `ParsingDone` with the total recorded), yet
the base handler still runs on it — with a prompt pattern matching that
line, the command becomes done.  Under the claim the base handler would not
have run and `is_done` would have stayed false. -/
theorem ls_base_handler_cex :
    parse_chain ("total 8".data) ls_init.current_ret
      = .parsingDone ⟨[], some ⟨"8", some 8⟩⟩
    ∧ (on_new_line c5_prompt "total 8" true ls_init).is_done = true
    ∧ (on_new_line c5_prompt "total 8" true ls_init).current_ret.total
        = some ⟨"8", some 8⟩ := by
  decide

/-- Claim C5 as amended: the base handler runs on every full line,
including lines claimed by a parse handler — `on_new_line` always ends by
invoking it on the post-chain state, so a claimed line does reach the base
handler (only the prompt check usually fails on it). -/
theorem ls_base_handler_unconditional (prompt : String → Bool) (line : String)
    (st : LsState) (r : LsResult)
    (h : parse_chain line.data st.current_ret = .parsingDone r) :
    on_new_line prompt line true st = base_on_new_line prompt line true ⟨r, st.is_done⟩ := by
  have hc : chain_result line.data st.current_ret = r := by
    unfold chain_result
    rw [h]
  show base_on_new_line prompt line true ⟨chain_result line.data st.current_ret, st.is_done⟩
    = base_on_new_line prompt line true ⟨r, st.is_done⟩
  rw [hc]

/-- Witness for the amended C5 at the concrete consumed line `total 8`. -/
theorem ls_base_handler_unconditional_witness :
    on_new_line c5_prompt "total 8" true ls_init
      = base_on_new_line c5_prompt "total 8" true ⟨⟨[], some ⟨"8", some 8⟩⟩, false⟩ :=
  ls_base_handler_unconditional c5_prompt "total 8" ls_init ⟨[], some ⟨"8", some 8⟩⟩ (by decide)

/-- Claim C6: the size-token conversion maps `<number><unit?>` with unit in
none, K, M, G, T to `number × 1024 ^ unit_index`, exactly also for
fractional numbers: `4.5M` to 4718592, `1T` to 1099511627776, `92` to 92. -/
theorem to_bytes_conversion :
    to_bytes "4.5M" = some 4718592
    ∧ to_bytes "1T" = some 1099511627776
    ∧ to_bytes "92" = some 92
    ∧ unit_multiplier 'K' = some (1024 ^ 1)
    ∧ unit_multiplier 'M' = some (1024 ^ 2)
    ∧ unit_multiplier 'G' = some (1024 ^ 3)
    ∧ unit_multiplier 'T' = some (1024 ^ 4) := by
  decide

/-- Claim C7: before the command reaches a terminal state every filtering
accessor fails with `ResultNotAvailableYet` (the accessors are read-only,
so the accumulated result is untouched); once done, with well-formed
entries, `_get_types` classifies by the first character of each entry's
permissions, and `get_dirs`/`get_links`/`get_files` are exactly
`_get_types` at 'd'/'l'/'-'. -/
theorem ls_accessors_contract (st : LsState) (t : Char) :
    (st.is_done = false → _get_types t st = .error .resultNotAvailableYet)
    ∧ (st.is_done = true → permsWellFormed st.current_ret.files = true →
        _get_types t st = .ok (permFilter t.toLower st.current_ret.files))
    ∧ get_dirs st = _get_types 'd' st
    ∧ get_links st = _get_types 'l' st
    ∧ get_files st = _get_types '-' st := by
  refine ⟨?_, ?_, rfl, rfl, rfl⟩
  · intro h
    simp [_get_types, h]
  · intro h hw
    simp only [_get_types, h, if_true]
    exact classifyFiles_wellformed t.toLower _ hw

/-- Witness for C7: a freshly constructed (pending) command fails with
`ResultNotAvailableYet`, and the done canonical-listing command classifies
by first permission character. -/
theorem ls_accessors_contract_witness :
    _get_types 'd' ls_init = .error .resultNotAvailableYet
    ∧ _get_types 'd' c1_state = .ok (permFilter 'd'.toLower c1_state.current_ret.files) := by
  constructor
  · exact (ls_accessors_contract ls_init 'd').1 rfl
  · exact (ls_accessors_contract c1_state 'd').2.1 (by decide) (by decide)

/-- Claim C9: `RegexHelper.__init__` stores `self.match = None`, shadowing
the class method `match`; the attribute stays present under every operation
sequence (later holding the latest cached engine result), so invoking
`match` on an instance always fails with a not-callable `TypeError`, while
the unshadowed methods still resolve to bound methods. -/
theorem regexHelper_shadowing :
    RegexHelper_new.callAttr "match" = .typeErrorNotCallable .pyNone
    ∧ (∀ ops : List RHOp,
        ∃ v, (applyOps RegexHelper_new ops).callAttr "match" = .typeErrorNotCallable v)
    ∧ (∀ (ops : List RHOp) (m : MatchRes),
        dictGet (applyOps RegexHelper_new
            (ops ++ [.doSearchCompiled (some m)])).instance_dict "match"
          = some (.pyMatch m))
    ∧ RegexHelper_new.callAttr "search_compiled" = .boundMethod "search_compiled"
    ∧ RegexHelper_new.callAttr "search" = .boundMethod "search"
    ∧ RegexHelper_new.callAttr "match_compiled" = .boundMethod "match_compiled"
    ∧ RegexHelper_new.callAttr "get_match" = .boundMethod "get_match"
    ∧ RegexHelper_new.callAttr "group" = .boundMethod "group" := by
  refine ⟨rfl, ?_, ?_, rfl, rfl, rfl, rfl, rfl⟩
  · intro ops
    obtain ⟨w, hw⟩ := applyOps_key_present ops RegexHelper_new .pyNone rfl
    exact ⟨w, by simp [RegexHelperObj.callAttr, RegexHelperObj.getattr, hw]⟩
  · intro ops m
    rw [applyOps, List.foldl_append]
    exact dictGet_dictSet_self _ "match" (.pyMatch m)

/-- Claim C10: a done `Ls` whose result holds an entry without a
`permissions` key — as produced by the bare filename-list parser — makes
every filtering accessor fail with the key-lookup error on `permissions`
instead of classifying the remaining entries. -/
theorem ls_missing_permissions_keyerror (st : LsState) (t : Char)
    (h : st.is_done = true)
    (hne : noEmptyPerm st.current_ret.files = true)
    (hsm : somePermMissing st.current_ret.files = true) :
    _get_types t st = .error (.keyError "permissions") := by
  simp only [_get_types, h, if_true]
  exact classifyFiles_missing_key t.toLower _ hne hsm

/-- Witness for C10: a done command that saw only the bare list
`.ansible Downloads` fails `get_dirs`-style classification with the
`permissions` key error. -/
theorem ls_missing_permissions_keyerror_witness :
    _get_types 'd' c10_state = .error (.keyError "permissions") :=
  ls_missing_permissions_keyerror c10_state 'd' (by decide) (by decide) (by decide)

/-- Claim C2: whenever `wait_for` times out, the action trace is exactly
unsubscribe, observer cancel, future cancel, shutdown, on_timeout — the
unsubscription strictly before the raise — and the raised error is
`CommandTimeout` when the observer has a `command_string` attribute and
`ConnectionObserverTimeout` otherwise, carrying the elapsed time (a number
of completed polling ticks times the tick length). -/
theorem runner_timeout_path (env : WaitEnv) (timeout : Option Rat) (fuel : Nat)
    (tr : List RunnerAction) (err : TimeoutErr)
    (h : wait_for env timeout fuel = .timedOut tr err) :
    tr = timeoutTrace
    ∧ ∃ (tv : Option Rat) (k : Nat),
        err = mkTimeoutErr env.hasCommandString tv ((k : Rat) * wait_tick_of timeout) := by
  cases timeout with
  | some t =>
    simp only [wait_for] at h
    by_cases ht : t = 0
    · rw [if_pos ht] at h
      obtain ⟨h1, tv, k2, _, h2⟩ := wait_for_loop_timedOut_shape fuel env true (1 / 10) _ _ _ tr err h
      exact ⟨h1, tv, k2, by simpa [wait_tick_of, ht] using h2⟩
    · rw [if_neg ht] at h
      obtain ⟨h1, tv, k2, _, h2⟩ := wait_for_loop_timedOut_shape fuel env false t _ _ _ tr err h
      exact ⟨h1, tv, k2, by simpa [wait_tick_of, ht] using h2⟩
  | none =>
    simp only [wait_for] at h
    obtain ⟨h1, tv, k2, _, h2⟩ := wait_for_loop_timedOut_shape fuel env true (1 / 10) _ _ _ tr err h
    exact ⟨h1, tv, k2, by simpa [wait_tick_of] using h2⟩

/-- Witness for C2: a command observer (has `command_string`) with a 0.1 s
timeout and a never-completing future times out after one tick with a
`CommandTimeout` carrying elapsed time 0.1 s and the expiry trace. -/
theorem runner_timeout_path_witness :
    wait_for envTimeoutCmd none 5
      = .timedOut timeoutTrace (.commandTimeout (some (1 / 10)) (1 / 10))
    ∧ (timeoutTrace = timeoutTrace
       ∧ ∃ (tv : Option Rat) (k : Nat),
           TimeoutErr.commandTimeout (some (1 / 10)) (1 / 10)
             = mkTimeoutErr envTimeoutCmd.hasCommandString tv ((k : Rat) * wait_tick_of none)) := by
  have h : wait_for envTimeoutCmd none 5
      = .timedOut timeoutTrace (.commandTimeout (some (1 / 10)) (1 / 10)) := by
    norm_num [wait_for, wait_for_loop, envTimeoutCmd, noDoneF, mkTimeoutErr]
  exact ⟨h, runner_timeout_path envTimeoutCmd none 5 timeoutTrace
    (.commandTimeout (some (1 / 10)) (1 / 10)) h⟩

/-- Claim C3 counterexample: the claim's explicit-timeout half fails for the
explicit argument `0`: Python's `if timeout:` treats `0` as absent, so the
observer's live timeout field still governs — two environments identical
except for the observer's timeout field give different waits under
`timeout=0` (immediate expiry with elapsed 0 versus two ticks and elapsed
0.2 s). -/
theorem runner_explicit_zero_cex :
    envZ1.futureDone = envZ2.futureDone
    ∧ envZ1.hasCommandString = envZ2.hasCommandString
    ∧ wait_for envZ1 (some 0) 5 ≠ wait_for envZ2 (some 0) 5 := by
  refine ⟨rfl, rfl, ?_⟩
  have h1 : wait_for envZ1 (some 0) 5
      = .timedOut timeoutTrace (.connectionObserverTimeout (some 0) 0) := by
    norm_num [wait_for, wait_for_loop, envZ1, noDoneF, mkTimeoutErr]
  have h2 : wait_for envZ2 (some 0) 5
      = .timedOut timeoutTrace (.connectionObserverTimeout (some (1 / 5)) (1 / 5)) := by
    norm_num [wait_for, wait_for_loop, envZ2, noDoneF, mkTimeoutErr]
  rw [h1, h2]
  intro hcontra
  injection hcontra with _ herr
  injection herr with htv _
  exact absurd (Option.some.inj htv) (by norm_num)

/-- Claim C3 as amended: with a *nonzero* explicit timeout the deadline is
fixed — the wait never reads the observer's timeout field; with no explicit
timeout the observer's own field is re-read on every polling tick, so the
wait continues exactly while the live value exceeds the elapsed time and
expires at the first tick `K` where it does not, the error carrying the
last-read value and the elapsed time `K × 0.1`.  (An explicit timeout of 0
is falsy in Python and behaves like no explicit timeout.) -/
theorem runner_deadline_source :
    (∀ (e1 e2 : WaitEnv) (t : Rat) (fuel : Nat),
        t ≠ 0 → e1.futureDone = e2.futureDone → e1.hasCommandString = e2.hasCommandString →
        wait_for e1 (some t) fuel = wait_for e2 (some t) fuel)
    ∧ (∀ (env : WaitEnv) (K fuel : Nat),
        (∀ j, env.futureDone j = false) →
        0 < env.obsT 0 →
        (∀ k, 1 ≤ k → k < K → (k : Rat) * (1 / 10) < env.obsT k) →
        env.obsT K ≤ (K : Rat) * (1 / 10) →
        1 ≤ K → K < fuel →
        wait_for env none fuel
          = .timedOut timeoutTrace
              (mkTimeoutErr env.hasCommandString (some (env.obsT K)) ((K : Rat) * (1 / 10)))) := by
  constructor
  · intro e1 e2 t fuel ht hf hc
    simp only [wait_for]
    rw [if_neg ht, if_neg ht]
    exact wait_for_loop_no_check fuel e1 e2 t (some t) t 0 hf hc
  · intro env K fuel hnd h0 hmid hK hK1 hfuel
    obtain ⟨f, rfl⟩ : ∃ f, fuel = f + 1 := ⟨fuel - 1, by omega⟩
    simp only [wait_for, wait_for_loop]
    rw [if_pos h0, hnd 0]
    simp only [Bool.false_eq_true, if_false, if_true, Option.getD_some]
    have hc1 : ((0 + 1 : Nat) : Rat) = ((1 : Nat) : Rat) := by norm_num
    rw [hc1]
    exact wait_for_loop_live_deadline (K - 1) env K hnd hmid hK 1 f (by omega) (by omega)
      (by omega)

/-- Witness for the amended C3: part one at the concrete nonzero timeout
0.5 s over two environments differing only in the observer timeout field;
part two at the live scenario where the observer timeout field is raised
from 0.3 s to 0.4 s at tick 2, extending the wait to expire at tick 4 with
elapsed 0.4 s. -/
theorem runner_deadline_source_witness :
    wait_for envZ1 (some (1 / 2)) 3 = wait_for envZ2 (some (1 / 2)) 3
    ∧ wait_for envLive none 7
        = .timedOut timeoutTrace
            (mkTimeoutErr envLive.hasCommandString (some (envLive.obsT 4)) ((4 : Rat) * (1 / 10))) := by
  constructor
  · exact runner_deadline_source.1 envZ1 envZ2 (1 / 2) 3 (by norm_num) rfl rfl
  · refine runner_deadline_source.2 envLive 4 7 (fun j => rfl) (by norm_num [envLive, liveObsT]) ?_
      (by norm_num [envLive, liveObsT]) (by norm_num) (by norm_num)
    intro k h1 h2
    interval_cases k <;> norm_num [envLive, liveObsT]

/-- Claim C8: whenever `wait_for` sees the future complete it calls
`self.shutdown()` before returning (trace exactly the shutdown action),
which sets the runner's `_in_shutdown` flag; as a consequence any other
feed loop on the same runner cancels its still-pending observer on its next
polling tick (and exits, unsubscribing, on the tick after). -/
theorem runner_completion_shutdown (env : WaitEnv) (timeout : Option Rat) (fuel : Nat)
    (tr : List RunnerAction) (h : wait_for env timeout fuel = .completed tr) :
    tr = [RunnerAction.shutdownAct]
    ∧ (∀ rs : RunnerState, (applyActions rs tr)._in_shutdown = true)
    ∧ (∀ (rs : RunnerState) (o : ObsState), o.obs_done = false →
        feed_iter (applyActions rs tr) o = .continues ⟨true, true⟩
        ∧ feed_iter (applyActions rs tr) ⟨true, true⟩ = .exitedUnsub ⟨true, true⟩) := by
  have htr : tr = [RunnerAction.shutdownAct] := by
    cases timeout with
    | some t =>
      simp only [wait_for] at h
      by_cases ht : t = 0
      · rw [if_pos ht] at h
        exact wait_for_loop_completed_shape fuel env true (1 / 10) _ _ _ tr h
      · rw [if_neg ht] at h
        exact wait_for_loop_completed_shape fuel env false t _ _ _ tr h
    | none =>
      simp only [wait_for] at h
      exact wait_for_loop_completed_shape fuel env true (1 / 10) _ _ _ tr h
  subst htr
  refine ⟨rfl, fun rs => rfl, fun rs o ho => ⟨?_, rfl⟩⟩
  simp [feed_iter, ObsState.cancel, applyActions, applyAction, ho]

/-- Witness for C8 at a future completing on the first wait call: the
completion trace, the `_in_shutdown` flag, and the cancellation of a
pending observer on the next feed tick. -/
theorem runner_completion_shutdown_witness :
    wait_for envCompletes none 3 = .completed [RunnerAction.shutdownAct]
    ∧ ([RunnerAction.shutdownAct] = [RunnerAction.shutdownAct]
       ∧ (∀ rs : RunnerState,
           (applyActions rs [RunnerAction.shutdownAct])._in_shutdown = true)
       ∧ (∀ (rs : RunnerState) (o : ObsState), o.obs_done = false →
           feed_iter (applyActions rs [RunnerAction.shutdownAct]) o = .continues ⟨true, true⟩
           ∧ feed_iter (applyActions rs [RunnerAction.shutdownAct]) ⟨true, true⟩
               = .exitedUnsub ⟨true, true⟩)) := by
  have h : wait_for envCompletes none 3 = .completed [RunnerAction.shutdownAct] := by
    norm_num [wait_for, wait_for_loop, envCompletes]
  exact ⟨h, runner_completion_shutdown envCompletes none 3 [RunnerAction.shutdownAct] h⟩
